import Mathlib

/-!
Verification development for the NetBox network-documentation generator
(`network_documentation.py`).  The Python source manipulates IP data through
the `netaddr` library; we embed the relevant `netaddr` operations (integer
value model of addresses and CIDR networks, membership test, host iteration)
together with the script's own logic (per-network address matching, capacity
and utilization arithmetic, orphan-VLAN resolution, detail-row merging,
run-level control flow, artifact persistence).

Machine integers do not occur: `netaddr` works with unbounded Python
integers, so `Nat`/`Int`/`ℚ` are exact models.
-/

/-- An IP address as `netaddr.IPAddress` represents it: an IP version
(4 or 6) together with the integer value of the address. -/
structure IPAddr where
  version : Nat
  value : Nat
deriving DecidableEq, Repr

/-- A CIDR network as `netaddr.IPNetwork` represents it: IP version, integer
value of the given address, and the mask length (`prefixlen`). -/
structure IPNet where
  version : Nat
  value : Nat
  plen : Nat
deriving DecidableEq, Repr

/-- Bit width of an address of a given IP version (`netaddr`: 32 for IPv4,
128 for IPv6; no other versions exist). -/
def ipWidth (v : Nat) : Nat := if v = 4 then 32 else 128

/-- Number of host bits of a network (width minus mask length). -/
def IPNet.hostBits (n : IPNet) : Nat := ipWidth n.version - n.plen

/-- `netaddr.IPNetwork.size`: the total number of addresses in the network. -/
def IPNet.size (n : IPNet) : Nat := 2 ^ n.hostBits

/-- `netaddr.IPNetwork.first` (= the network/base address value): the given
value with the host bits cleared. -/
def IPNet.networkValue (n : IPNet) : Nat := n.value >>> n.hostBits <<< n.hostBits

/-- `netaddr.IPNetwork.last` (for IPv4 the broadcast address value): network
value plus size minus one. -/
def IPNet.broadcastValue (n : IPNet) : Nat := n.networkValue + (n.size - 1)

/-- `netaddr`'s membership test `IPAddress in IPNetwork`: the versions must
agree and the network bits of the address must equal those of the network.
(`netaddr` returns `False` outright when the IP versions differ.) -/
def IPNet.containsAddr (n : IPNet) (a : IPAddr) : Bool :=
  a.version == n.version && a.value >>> n.hostBits == n.value >>> n.hostBits

/-- Well-formedness of a network record as `netaddr` guarantees it after a
successful parse: version is 4 or 6, mask length bounded by the width, and
the value fits in the width. -/
def IPNet.wf (n : IPNet) : Prop :=
  (n.version = 4 ∨ n.version = 6) ∧ n.plen ≤ ipWidth n.version ∧
    n.value < 2 ^ ipWidth n.version

/-- Outcome of the tag lookup `ip_address.tags.filter(slug=...).exists()`
performed inside `_is_default_gateway`: either a list of tag slugs, or a
raised error (any `Exception`). -/
inductive TagLookup where
  | ok (slugs : List String)
  | err (msg : String)
deriving DecidableEq, Repr

/-- A stored `IPAddress` record, reduced to the fields the script reads:
a record identity, the result of parsing `str(ip.address).split('/')[0]`
with `netaddr.IPAddress` (`none` when the parse raised), and the outcome of
its tag lookup. -/
structure IPRecord where
  rid : Nat
  parsed : Option IPAddr
  tagsResult : TagLookup
deriving DecidableEq, Repr

/-- Sort key of `matching_ips.sort(key=...)`: the parsed numeric value
(every record reaching the sort parses successfully; `0` is a dummy). -/
def parsedValue (r : IPRecord) : Nat :=
  match r.parsed with
  | some a => a.value
  | none => 0

/-- Comparison used to model the Python sort of the matcher output. -/
def recLe (r s : IPRecord) : Bool := parsedValue r ≤ parsedValue s

/-- The per-record test of `_get_prefix_ip_addresses`: the record's address
text must parse and the parsed address must lie in the network; a record
whose parse raises is skipped by the bare `except: pass`. -/
def matchPred (n : IPNet) (r : IPRecord) : Bool :=
  match r.parsed with
  | some a => n.containsAddr a
  | none => false

/-- `_get_prefix_ip_addresses`: keep every stored record passing
`matchPred`, then sort the survivors by numeric address value. -/
def matchingIps (records : List IPRecord) (n : IPNet) : List IPRecord :=
  (records.filter (matchPred n)).mergeSort recLe

/-- `used_ips = len(assigned_ips)` in `_create_summary_sheet`. -/
def usedCount (records : List IPRecord) (n : IPNet) : Nat :=
  (matchingIps records n).length

/-- The `total_ips` computation of `_create_summary_sheet`: full size minus
2 for mask length ≤ 30, full size otherwise (Python integers, so `Int`). -/
def totalIps (n : IPNet) : Int :=
  if n.plen ≤ 30 then (n.size : Int) - 2 else (n.size : Int)

/-- The `utilization_pct` computation of `_create_summary_sheet`:
`used_ips / total_ips * 100 if total_ips > 0 else 0`, in exact rational
arithmetic. -/
def utilizationPct (used : Nat) (total : Int) : ℚ :=
  if 0 < total then (used : ℚ) / (total : ℚ) * 100 else 0

/-- Modelled from the spec: a percentage value "rounded to one decimal
place" is an integer number of tenths.  (Claim C3 compares the code's
reported value against this; the code itself performs no rounding.) -/
def specOneDecimal (x : ℚ) : Prop := ∃ z : ℤ, x = (z : ℚ) / 10

/-- `_is_default_gateway`: `True` iff the tag lookup succeeds and the
returned slugs include exactly the string `default-gateway` (string
comparison, hence case-sensitive); any raised error lands in the `except`
arm and yields `False`. -/
def isDefaultGateway (t : TagLookup) : Bool :=
  match t with
  | .ok slugs => slugs.contains "default-gateway"
  | .err _ => false

/-- `gateway_ips = [ip for ip in assigned_ips if self._is_default_gateway(ip)]`. -/
def gatewayIps (records : List IPRecord) (n : IPNet) : List IPRecord :=
  (matchingIps records n).filter (fun r => isDefaultGateway r.tagsResult)

/-- `netaddr.IPNetwork.iter_hosts()` (netaddr ≥ 1.0, as shipped with the
NetBox 4.x releases this script targets — the optional `netbox_branching`
integration exists only there), materialized as the list of address values
it yields, in yield order: for IPv4 the network and broadcast addresses
are excluded when the network has at least 4 addresses, while /31 and /32
keep all addresses (RFC 3021); for IPv6 the first address (the
Subnet-Router anycast address) is excluded when the network has at least
4 addresses, while /127 and /128 keep all addresses (RFC 6164). -/
def iterHosts (n : IPNet) : List Nat :=
  if n.version = 4 then
    if 4 ≤ n.size then
      (List.range (n.size - 2)).map (fun i => n.networkValue + 1 + i)
    else
      (List.range n.size).map (fun i => n.networkValue + i)
  else
    if 4 ≤ n.size then
      (List.range (n.size - 1)).map (fun i => n.networkValue + 1 + i)
    else
      (List.range n.size).map (fun i => n.networkValue + i)

/-- `show_all_ips = show_unused_ips and prefix_size >= 24` in
`_create_prefix_sheets`. -/
def showAllIps (showUnused : Bool) (n : IPNet) : Bool :=
  showUnused && decide (24 ≤ n.plen)

/-- `all_ips_in_prefix`: the full host enumeration when `show_all_ips`
holds, otherwise just the numeric values of the assigned records. -/
def ipsForSheet (showUnused : Bool) (n : IPNet)
    (assigned : List IPRecord) : List Nat :=
  if showAllIps showUnused n then iterHosts n else assigned.map parsedValue

/-- A rendered detail row: either an assigned address with full device
detail (we keep the record identity and the gateway flag) or an
"available" row carrying only the address value and the sheet's mask
length. -/
inductive SheetRow where
  | assignedRow (rid : Nat) (value : Nat) (gateway : Bool)
  | availableRow (value : Nat) (plen : Nat)
deriving DecidableEq, Repr

/-- The numeric address value a row displays. -/
def rowValue : SheetRow → Nat
  | .assignedRow _ v _ => v
  | .availableRow v _ => v

/-- The dict `assigned_ip_lookup` keyed by address text: entries are
inserted in list order and later entries overwrite earlier ones, so a hit
returns the last record with the given numeric value. -/
def lookupAssigned (assigned : List IPRecord) (v : Nat) : Option IPRecord :=
  assigned.reverse.find? (fun r => parsedValue r == v)

/-- The body of the row loop of `_create_prefix_sheets`: an assigned row
with full detail when the lookup hits, an "available" row otherwise. -/
def rowFor (n : IPNet) (assigned : List IPRecord) (v : Nat) : SheetRow :=
  match lookupAssigned assigned v with
  | some r => SheetRow.assignedRow r.rid v (isDefaultGateway r.tagsResult)
  | none => SheetRow.availableRow v n.plen

/-- The row loop of `_create_prefix_sheets`: one row per enumerated
value. -/
def buildRows (showUnused : Bool) (n : IPNet)
    (assigned : List IPRecord) : List SheetRow :=
  (ipsForSheet showUnused n assigned).map (rowFor n assigned)

/-- A VLAN row: database identity (`id`) and numeric tag (`vid`). -/
structure VlanRec where
  vlanId : Nat
  vid : Nat
deriving DecidableEq, Repr

/-- A stored network row of the site: the CIDR network plus the optional
database identity of its associated VLAN. -/
structure NetRec where
  net : IPNet
  vlanId : Option Nat
deriving DecidableEq, Repr

/-- `prefix_vlan_ids` in `_get_orphan_vlans`: the VLAN identities
referenced by at least one network row
(`exclude(vlan__isnull=True).values_list('vlan_id', flat=True)`). -/
def associatedVlanIds (nets : List NetRec) : List Nat :=
  nets.filterMap (fun p => p.vlanId)

/-- Comparison modelling the `order_by('vid')` of the orphan query. -/
def vlanLe (v w : VlanRec) : Bool := v.vid ≤ w.vid

/-- `_get_orphan_vlans`: the site VLANs whose identity occurs in no network
row, ordered by `vid`. -/
def orphanVlans (siteVlans : List VlanRec) (nets : List NetRec) : List VlanRec :=
  (siteVlans.filter
    (fun v => !((associatedVlanIds nets).contains v.vlanId))).mergeSort vlanLe

/-- The complementary set: site VLANs associated with at least one network
row (these reach the summary through their networks). -/
def associatedSiteVlans (siteVlans : List VlanRec) (nets : List NetRec) :
    List VlanRec :=
  siteVlans.filter (fun v => (associatedVlanIds nets).contains v.vlanId)

/-- One row of the summary sheet, as `_create_summary_sheet` computes it
per network: VLAN identity, network, gateway values, used count, capacity,
and the utilization percentage placed in the cell. -/
structure SummaryRow where
  vlanId : Option Nat
  net : IPNet
  gateways : List Nat
  used : Nat
  total : Int
  pct : ℚ
deriving Repr

/-- The per-network summary computation of `_create_summary_sheet`. -/
def summaryRow (records : List IPRecord) (p : NetRec) : SummaryRow :=
  { vlanId := p.vlanId
    net := p.net
    gateways := (gatewayIps records p.net).map parsedValue
    used := usedCount records p.net
    total := totalIps p.net
    pct := utilizationPct (usedCount records p.net) (totalIps p.net) }

/-- The per-network skip test plus row build of `_create_prefix_sheets`
(`if not include_empty and len(assigned_ips) == 0 and not show_unused_ips:
continue`). -/
def sheetFor (records : List IPRecord) (includeEmpty showUnused : Bool)
    (p : NetRec) : Option (List SheetRow) :=
  let assigned := matchingIps records p.net
  if !includeEmpty && assigned.length == 0 && !showUnused then none
  else some (buildRows showUnused p.net assigned)

/-- The document model assembled by `do_work`: summary rows, orphan-VLAN
rows, and one detail sheet per non-skipped network. -/
structure ReportModel where
  summary : List SummaryRow
  orphans : List VlanRec
  sheets : List (List SheetRow)

/-- The document build of `do_work` (cover page omitted: it carries only
site attributes and a timestamp, no computed content). -/
def buildReport (records : List IPRecord) (nets : List NetRec)
    (siteVlans : List VlanRec) (includeEmpty showUnused : Bool) : ReportModel :=
  { summary := nets.map (summaryRow records)
    orphans := orphanVlans siteVlans nets
    sheets := nets.filterMap (sheetFor records includeEmpty showUnused) }

/-- Result of `do_work` inside `run`: either the validation-gate early
exit (`return None, "ERROR: ..."` — handed back to the caller as a plain
result string, never raised) or a built document. -/
inductive RunOutcome where
  | noData (msg : String)
  | artifact (rm : ReportModel)

/-- Whether an outcome is the "no data" early exit. -/
def RunOutcome.isNoData : RunOutcome → Bool
  | .noData _ => true
  | .artifact _ => false

/-- `do_work`: the validation gate fires exactly when both the network
count and the VLAN count are zero; otherwise the full document is built. -/
def doWork (records : List IPRecord) (nets : List NetRec)
    (siteVlans : List VlanRec) (includeEmpty showUnused : Bool) : RunOutcome :=
  if nets.length = 0 ∧ siteVlans.length = 0 then
    RunOutcome.noData "ERROR: No prefixes or VLANs found for site"
  else
    RunOutcome.artifact (buildReport records nets siteVlans includeEmpty showUnused)

/-- Outcome of the persistence phase of `run` (PHASE 3). -/
inductive PersistResult where
  | attachedToJob
  | savedToMedia
  | errorResult
deriving DecidableEq, Repr

/-- Whether a persistence outcome delivers the generated artifact to the
user in any form. -/
def deliversArtifact : PersistResult → Bool
  | .errorResult => false
  | _ => true

/-- The persistence logic of `run`: when a job with an `output_file` field
is found, the artifact is attached to it (an error raised there falls
through to the outer `except`, which returns an error string); otherwise
the artifact is written under the media directory (an error raised there
likewise yields the error string).  No code path returns the artifact
inline. -/
def persistArtifact (jobHasOutputFile attachOk mediaOk : Bool) : PersistResult :=
  if jobHasOutputFile then
    if attachOk then .attachedToJob else .errorResult
  else
    if mediaOk then .savedToMedia else .errorResult

-- ==========================================================================
-- Concrete networks and records used in counterexamples and witnesses
-- ==========================================================================

/-- Concrete IPv6 record `::1` (version 6, value 1). -/
def recV6 : IPRecord := ⟨0, some ⟨6, 1⟩, TagLookup.ok []⟩

/-- Concrete network `0.0.0.0/0` (IPv4, covers all 32-bit values). -/
def netV4All : IPNet := ⟨4, 0, 0⟩

/-- The network `192.168.0.0/24`. -/
def net24 : IPNet := ⟨4, 3232235520, 24⟩

/-- The stored record `192.168.0.1` (value 3232235521), well-formed tags. -/
def recA : IPRecord := ⟨1, some ⟨4, 3232235521⟩, TagLookup.ok []⟩

/-- The network `10.0.0.0/29` (capacity 6). -/
def net29 : IPNet := ⟨4, 167772160, 29⟩

/-- The IPv6 network `::/126` (4 addresses). -/
def net126 : IPNet := ⟨6, 0, 126⟩

/-- The network `192.168.0.0/30` (4 addresses, 2 usable hosts). -/
def net30 : IPNet := ⟨4, 3232235520, 30⟩

/-- A stored record whose address text fails to parse. -/
def recBad : IPRecord := ⟨2, none, TagLookup.ok []⟩

/-- A stored record carrying the `default-gateway` tag
(`192.168.0.1`, value 3232235521). -/
def recGW : IPRecord := ⟨3, some ⟨4, 3232235521⟩, TagLookup.ok ["default-gateway"]⟩

/-- A VLAN with database identity 10 and tag 100. -/
def vlanA : VlanRec := ⟨10, 100⟩

/-- A VLAN with database identity 11 and tag 200. -/
def vlanB : VlanRec := ⟨11, 200⟩

/-- A network row for `192.168.0.0/24` associated with `vlanA`. -/
def netRec24 : NetRec := ⟨net24, some 10⟩

-- ==========================================================================
-- Arithmetic helpers
-- ==========================================================================

/-- Division by a positive number sends `a` and `v` to the same quotient
exactly when `a` lies in the block `[ (v/t)*t , (v/t)*t + (t-1) ]`. -/
theorem div_eq_div_iff_mem_block (a v t : Nat) (ht : 0 < t) :
    a / t = v / t ↔ (v / t) * t ≤ a ∧ a ≤ (v / t) * t + (t - 1) := by
  constructor
  · intro h
    have hfloor : (a / t) * t ≤ a := Nat.div_mul_le_self a t
    have hmod := Nat.div_add_mod a t
    have hlt : a % t < t := Nat.mod_lt a ht
    constructor
    · rw [← h]; exact hfloor
    · rw [← h]
      generalize hq : t * (a / t) = w at hmod
      have : (a / t) * t = w := by rw [Nat.mul_comm] at hq; exact hq
      omega
  · rintro ⟨hlo, hhi⟩
    have hlt : a < (v / t + 1) * t := by
      have : (v / t + 1) * t = (v / t) * t + t := by ring
      omega
    have h1 : v / t ≤ a / t := (Nat.le_div_iff_mul_le ht).mpr hlo
    have h2 : a / t < v / t + 1 := (Nat.div_lt_iff_lt_mul ht).mpr hlt
    omega

/-- The `netaddr` membership test, for an address of the right version,
is exactly the inclusive range test on integer values. -/
theorem containsAddr_iff_range (n : IPNet) (a : IPAddr)
    (hv : a.version = n.version) :
    n.containsAddr a = true ↔
      n.networkValue ≤ a.value ∧ a.value ≤ n.broadcastValue := by
  have ht : 0 < 2 ^ n.hostBits := Nat.pos_pow_of_pos _ (by norm_num)
  have hsplit := div_eq_div_iff_mem_block a.value n.value (2 ^ n.hostBits) ht
  simp only [IPNet.containsAddr, IPNet.networkValue, IPNet.broadcastValue,
    IPNet.size, Nat.shiftRight_eq_div_pow, Nat.shiftLeft_eq,
    Bool.and_eq_true, beq_iff_eq]
  constructor
  · rintro ⟨-, h⟩
    exact hsplit.mp h |>.imp id id
  · intro h
    exact ⟨hv, hsplit.mpr h⟩

theorem size_pos (n : IPNet) : 0 < n.size :=
  Nat.pos_pow_of_pos _ (by norm_num)

/-- For a well-formed network of mask length ≤ 30 there are at least 4
addresses (both IPv4 and IPv6 widths are ≥ 32). -/
theorem size_ge_four_of_plen_le_30 (n : IPNet) (hw : n.wf)
    (h30 : n.plen ≤ 30) : 4 ≤ n.size := by
  have hwidth : 32 ≤ ipWidth n.version := by
    rcases hw.1 with h | h <;> simp [ipWidth, h]
  have hbits : 2 ≤ n.hostBits := by
    simp only [IPNet.hostBits]; omega
  calc (4 : Nat) = 2 ^ 2 := by norm_num
    _ ≤ 2 ^ n.hostBits := Nat.pow_le_pow_right (by norm_num) hbits

/-- The computed capacity is always strictly positive. -/
theorem totalIps_pos (n : IPNet) (hw : n.wf) : 0 < totalIps n := by
  unfold totalIps
  by_cases h30 : n.plen ≤ 30
  · have h4 := size_ge_four_of_plen_le_30 n hw h30
    simp only [h30, if_true]
    have : (4 : Int) ≤ (n.size : Int) := by exact_mod_cast h4
    omega
  · have h1 := size_pos n
    simp only [h30, if_false]
    exact_mod_cast h1

-- ==========================================================================
-- Claim C1 — containment result vs. integer range
-- ==========================================================================

/-- C1 fails as stated: the IPv6 address `::1` has integer value 1, which
lies inside the inclusive integer range of the IPv4 network `0.0.0.0/0`,
yet `netaddr` membership (and hence the matcher) rejects it because the IP
versions differ. -/
theorem c1_counterexample :
    ¬ (recV6 ∈ matchingIps [recV6] netV4All ↔
        netV4All.networkValue ≤ 1 ∧ 1 ≤ netV4All.broadcastValue) := by
  intro h
  have hmem := h.mpr (by decide)
  have hf : List.filter (matchPred netV4All) [recV6] = [] := by decide
  rw [matchingIps, hf, List.mergeSort_nil] at hmem
  exact (List.not_mem_nil recV6) hmem

/-- C1 (amended with the same-IP-version condition): a stored record whose
address text parses is in the matcher's result for a network exactly when
its numeric value lies within the network's inclusive integer range
`[networkValue, broadcastValue]` — provided the address has the network's
IP version; the address's own declared mask length plays no role. -/
theorem c1_mem_matchingIps_iff_range (records : List IPRecord) (n : IPNet)
    (r : IPRecord) (a : IPAddr) (hr : r ∈ records) (hp : r.parsed = some a)
    (hv : a.version = n.version) :
    r ∈ matchingIps records n ↔
      n.networkValue ≤ a.value ∧ a.value ≤ n.broadcastValue := by
  rw [matchingIps, (List.mergeSort_perm _ recLe).mem_iff, List.mem_filter]
  constructor
  · intro hmem
    have hpred := hmem.2
    rw [matchPred, hp] at hpred
    exact (containsAddr_iff_range n a hv).mp hpred
  · intro hrange
    refine ⟨hr, ?_⟩
    rw [matchPred, hp]
    exact (containsAddr_iff_range n a hv).mpr hrange

theorem c1_witness : recA ∈ matchingIps [recA] net24 :=
  (c1_mem_matchingIps_iff_range [recA] net24 recA ⟨4, 3232235521⟩
    (by decide) (by decide) (by decide)).mpr (by decide)

-- ==========================================================================
-- Claim C2 — capacity policy
-- ==========================================================================

/-- C2: the computed capacity (`total_ips`) is never negative; it equals
the full address count minus 2 for mask length ≤ 30 and equals the full
count for /31 and /32 (IPv4) and /127 and /128 (IPv6).  (It is a pure
function of the network, so recomputation trivially yields the same
value.) -/
theorem c2_capacity_policy (n : IPNet) (hw : n.wf) :
    0 ≤ totalIps n ∧
    (n.plen ≤ 30 → totalIps n = (n.size : Int) - 2) ∧
    ((n.version = 4 ∧ (n.plen = 31 ∨ n.plen = 32)) ∨
        (n.version = 6 ∧ (n.plen = 127 ∨ n.plen = 128)) →
      totalIps n = (n.size : Int)) := by
  refine ⟨le_of_lt (totalIps_pos n hw), ?_, ?_⟩
  · intro h
    simp [totalIps, h]
  · rintro (⟨-, h | h⟩ | ⟨-, h | h⟩) <;> simp [totalIps, h]

theorem c2_witness :
    0 ≤ totalIps net24 ∧ totalIps net24 = (net24.size : Int) - 2 := by
  have h := c2_capacity_policy net24 (by constructor <;> decide)
  exact ⟨h.1, h.2.1 (by decide)⟩

-- ==========================================================================
-- Claim C3 — utilization arithmetic
-- ==========================================================================

/-- C3 fails as stated: with 1 used address in a /29 (capacity 6) the code
reports `1 / 6 * 100 = 50/3 ≈ 16.67`, which is not an integer number of
tenths, hence cannot equal any value "rounded to one decimal place" — the
code performs no rounding. -/
theorem c3_counterexample :
    utilizationPct 1 (totalIps net29) = 50 / 3 ∧
      ¬ specOneDecimal (50 / 3) := by
  constructor
  · have h6 : totalIps net29 = 6 := by decide
    rw [h6]
    norm_num [utilizationPct]
  · rintro ⟨z, hz⟩
    have h : (500 : ℚ) = 3 * (z : ℚ) := by field_simp at hz; linarith
    have h2 : (500 : ℤ) = 3 * z := by exact_mod_cast h
    omega

/-- C3 (amended): the reported utilization is exactly
`used / capacity * 100` with no rounding; the computed capacity is always
strictly positive for a well-formed network, so the zero-capacity branch
(in which the code would report 0, not "N/A") is unreachable — "N/A" is
emitted only when an exception occurs while processing the row. -/
theorem c3_utilization_amended (n : IPNet) (used : Nat) (hw : n.wf) :
    0 < totalIps n ∧
      utilizationPct used (totalIps n) =
        (used : ℚ) / ((totalIps n : ℤ) : ℚ) * 100 := by
  have hpos := totalIps_pos n hw
  exact ⟨hpos, by simp [utilizationPct, hpos]⟩

theorem c3_witness :
    0 < totalIps net29 ∧
      utilizationPct 1 (totalIps net29) =
        (1 : ℚ) / ((totalIps net29 : ℤ) : ℚ) * 100 :=
  c3_utilization_amended net29 1 (by constructor <;> decide)

-- ==========================================================================
-- Claim C4 — host enumeration gating, ordering, and length
-- ==========================================================================

/-- The host enumeration is strictly ascending. -/
theorem iterHosts_pairwise (n : IPNet) :
    List.Pairwise (· < ·) (iterHosts n) := by
  have hr : ∀ k c : Nat,
      List.Pairwise (· < ·) ((List.range k).map (fun i => c + i)) := by
    intro k c
    rw [List.pairwise_map]
    exact List.Pairwise.imp (fun h => Nat.add_lt_add_left h c)
      (List.sorted_lt_range k)
  unfold iterHosts
  split
  · split
    · exact hr _ _
    · exact hr _ _
  · split
    · exact hr _ _
    · exact hr _ _

/-- For an IPv4 network the enumeration length equals the computed
capacity (both the `size ≥ 4` exclusion of network/broadcast and the /31
and /32 cases line up with the `total_ips` policy). -/
theorem iterHosts_length_v4 (n : IPNet) (hw : n.wf) (hv : n.version = 4) :
    ((iterHosts n).length : Int) = totalIps n := by
  have hwidth : ipWidth n.version = 32 := by rw [hv]; rfl
  by_cases h30 : n.plen ≤ 30
  · have h4 : 4 ≤ n.size := size_ge_four_of_plen_le_30 n hw h30
    rw [iterHosts, if_pos hv, if_pos h4, totalIps, if_pos h30,
      List.length_map, List.length_range]
    omega
  · have hb : n.hostBits ≤ 1 := by
      simp only [IPNet.hostBits, hwidth]
      omega
    have hsize : n.size ≤ 2 := by
      calc n.size = 2 ^ n.hostBits := rfl
        _ ≤ 2 ^ 1 := Nat.pow_le_pow_right (by norm_num) hb
        _ = 2 := rfl
    have h4 : ¬ 4 ≤ n.size := by omega
    rw [iterHosts, if_pos hv, if_neg h4, totalIps, if_neg h30,
      List.length_map, List.length_range]

/-- For an IPv6 network of mask length 127 or 128 no address is excluded,
and the enumeration length equals the computed capacity (RFC 6164 /127 and
host /128 both fall in the full-size branch of `total_ips` as well). -/
theorem iterHosts_length_v6_small (n : IPNet) (hv : n.version = 6)
    (hp : n.plen = 127 ∨ n.plen = 128) :
    ((iterHosts n).length : Int) = totalIps n := by
  have hv4 : ¬ n.version = 4 := by simp [hv]
  have hb : n.hostBits ≤ 1 := by
    simp only [IPNet.hostBits, ipWidth, hv]
    rcases hp with h | h <;> simp [h]
  have hsize : n.size ≤ 2 := by
    calc n.size = 2 ^ n.hostBits := rfl
      _ ≤ 2 ^ 1 := Nat.pow_le_pow_right (by norm_num) hb
      _ = 2 := rfl
  have h4 : ¬ 4 ≤ n.size := by omega
  have h30 : ¬ n.plen ≤ 30 := by omega
  rw [iterHosts, if_neg hv4, if_neg h4, totalIps, if_neg h30,
    List.length_map, List.length_range]

/-- For an IPv6 network of mask length between 24 and 126 the enumeration
excludes exactly one address (the Subnet-Router anycast address), so its
length is the full size minus 1 — which matches neither branch of the
`total_ips` policy. -/
theorem iterHosts_length_v6_large (n : IPNet) (hv : n.version = 6)
    (h24 : 24 ≤ n.plen) (h126 : n.plen ≤ 126) :
    ((iterHosts n).length : Int) = (n.size : Int) - 1 ∧
      ((iterHosts n).length : Int) ≠ totalIps n := by
  have hv4 : ¬ n.version = 4 := by simp [hv]
  have hw128 : ipWidth n.version = 128 := by rw [hv]; rfl
  have hb : 2 ≤ n.hostBits := by
    simp only [IPNet.hostBits, hw128]
    omega
  have h4 : 4 ≤ n.size := by
    calc (4 : Nat) = 2 ^ 2 := by norm_num
      _ ≤ 2 ^ n.hostBits := Nat.pow_le_pow_right (by norm_num) hb
  have hlen : ((iterHosts n).length : Int) = (n.size : Int) - 1 := by
    rw [iterHosts, if_neg hv4, if_pos h4, List.length_map, List.length_range]
    omega
  refine ⟨hlen, ?_⟩
  rw [hlen, totalIps]
  by_cases h30 : n.plen ≤ 30
  · rw [if_pos h30]
    omega
  · rw [if_neg h30]
    omega

/-- C4 fails as stated: for the IPv6 network `::/126` the enumeration is
invoked (mask length 126 ≥ 24 and show-unused on) but yields 3 addresses
(the Subnet-Router anycast address is excluded) while the computed
capacity is 4, so the output length differs from the capacity. -/
theorem c4_counterexample :
    showAllIps true net126 = true ∧
      ((iterHosts net126).length : Int) ≠ totalIps net126 := by
  constructor
  · decide
  · decide

/-- C4 (amended): enumeration happens only for mask length ≥ 24 — for
shorter masks the sheet uses just the assigned values, whatever the
show-unused option — and when it happens the output is strictly
ascending; its length equals the computed capacity for IPv4 networks and
for IPv6 /127 and /128, while for IPv6 networks of mask length 24–126 the
enumeration excludes exactly one address (the Subnet-Router anycast
address), so its length is the full size minus 1 and differs from the
capacity. -/
theorem c4_enumeration_amended (showUnused : Bool) (n : IPNet)
    (assigned : List IPRecord) (hw : n.wf) :
    (n.plen < 24 → showAllIps showUnused n = false ∧
        ipsForSheet showUnused n assigned = assigned.map parsedValue) ∧
    (showAllIps showUnused n = true → 24 ≤ n.plen) ∧
    List.Pairwise (· < ·) (iterHosts n) ∧
    (n.version = 4 → ((iterHosts n).length : Int) = totalIps n) ∧
    (n.version = 6 → (n.plen = 127 ∨ n.plen = 128) →
        ((iterHosts n).length : Int) = totalIps n) ∧
    (n.version = 6 → 24 ≤ n.plen → n.plen ≤ 126 →
        ((iterHosts n).length : Int) = (n.size : Int) - 1 ∧
          ((iterHosts n).length : Int) ≠ totalIps n) := by
  refine ⟨?_, ?_, iterHosts_pairwise n, fun hv => iterHosts_length_v4 n hw hv,
    fun hv hp => iterHosts_length_v6_small n hv hp,
    fun hv h24 h126 => iterHosts_length_v6_large n hv h24 h126⟩
  · intro h
    have hd : (decide (24 ≤ n.plen)) = false := decide_eq_false (by omega)
    have hfalse : showAllIps showUnused n = false := by
      simp [showAllIps, hd]
    exact ⟨hfalse, by simp [ipsForSheet, hfalse]⟩
  · intro h
    exact of_decide_eq_true ((Bool.and_eq_true _ _).mp h).2

theorem c4_witness :
    24 ≤ net24.plen ∧ ((iterHosts net24).length : Int) = totalIps net24 ∧
      ((iterHosts (⟨6, 0, 127⟩ : IPNet)).length : Int) =
        totalIps (⟨6, 0, 127⟩ : IPNet) := by
  have h := c4_enumeration_amended true net24 [] (by constructor <;> decide)
  have h6 := c4_enumeration_amended true (⟨6, 0, 127⟩ : IPNet) []
    (by constructor <;> decide)
  exact ⟨h.2.1 (by decide), h.2.2.2.1 (by decide),
    h6.2.2.2.2.1 (by decide) (Or.inl rfl)⟩

-- ==========================================================================
-- Claim C5 — show-unused merge of assigned and available rows
-- ==========================================================================

/-- Each built row displays the value it was built from. -/
theorem rowValue_rowFor (n : IPNet) (assigned : List IPRecord) (v : Nat) :
    rowValue (rowFor n assigned v) = v := by
  unfold rowFor
  cases lookupAssigned assigned v <;> rfl

/-- A built row that is an assigned row comes from its own value and from a
successful lookup. -/
theorem rowFor_assigned_inv (n : IPNet) (assigned : List IPRecord)
    {w i v : Nat} {g : Bool}
    (h : rowFor n assigned w = SheetRow.assignedRow i v g) :
    w = v ∧ ∃ r, lookupAssigned assigned w = some r := by
  unfold rowFor at h
  cases hl : lookupAssigned assigned w with
  | none =>
    simp only [hl] at h
    exact SheetRow.noConfusion h
  | some r =>
    simp only [hl] at h
    injection h with h1 h2 h3
    exact ⟨h2, r, rfl⟩

/-- A built row that is an available row comes from its own value and from
a failed lookup. -/
theorem rowFor_available_inv (n : IPNet) (assigned : List IPRecord)
    {w v pl : Nat}
    (h : rowFor n assigned w = SheetRow.availableRow v pl) :
    w = v ∧ lookupAssigned assigned w = none := by
  unfold rowFor at h
  cases hl : lookupAssigned assigned w with
  | none =>
    simp only [hl] at h
    injection h with h1 h2
    exact ⟨h1, rfl⟩
  | some r =>
    simp only [hl] at h
    exact SheetRow.noConfusion h

/-- C5: in a detail sheet built with the show-unused merge, no address
value appears both as an assigned row and as an "available" row; every
enumerated value whose lookup hits is rendered as an assigned row with
full detail, every enumerated value whose lookup misses is rendered as an
"available" row, and the rows are ordered strictly ascending by numeric
address value. -/
theorem c5_detail_merge (showUnused : Bool) (n : IPNet)
    (assigned : List IPRecord) (hs : showAllIps showUnused n = true) :
    (∀ i v g pl,
      ¬ (SheetRow.assignedRow i v g ∈ buildRows showUnused n assigned ∧
          SheetRow.availableRow v pl ∈ buildRows showUnused n assigned)) ∧
    (∀ v ∈ iterHosts n, ∀ r, lookupAssigned assigned v = some r →
        SheetRow.assignedRow r.rid v (isDefaultGateway r.tagsResult) ∈
          buildRows showUnused n assigned) ∧
    (∀ v ∈ iterHosts n, lookupAssigned assigned v = none →
        SheetRow.availableRow v n.plen ∈ buildRows showUnused n assigned) ∧
    List.Pairwise (· < ·) ((buildRows showUnused n assigned).map rowValue) := by
  have hips : ipsForSheet showUnused n assigned = iterHosts n := by
    simp [ipsForSheet, hs]
  have hbuild : buildRows showUnused n assigned =
      (iterHosts n).map (rowFor n assigned) := by
    rw [buildRows, hips]
  refine ⟨?_, ?_, ?_, ?_⟩
  · rintro i v g pl ⟨ha, hb⟩
    rw [hbuild, List.mem_map] at ha hb
    obtain ⟨v1, -, h1⟩ := ha
    obtain ⟨v2, -, h2⟩ := hb
    obtain ⟨hv1, r, hsome⟩ := rowFor_assigned_inv n assigned h1
    obtain ⟨hv2, hnone⟩ := rowFor_available_inv n assigned h2
    rw [hv1] at hsome
    rw [hv2] at hnone
    rw [hnone] at hsome
    exact Option.noConfusion hsome
  · intro v hv r hr
    rw [hbuild]
    have : rowFor n assigned v =
        SheetRow.assignedRow r.rid v (isDefaultGateway r.tagsResult) := by
      unfold rowFor
      rw [hr]
    exact this ▸ List.mem_map_of_mem (rowFor n assigned) hv
  · intro v hv hr
    rw [hbuild]
    have : rowFor n assigned v = SheetRow.availableRow v n.plen := by
      unfold rowFor
      rw [hr]
    exact this ▸ List.mem_map_of_mem (rowFor n assigned) hv
  · rw [hbuild, List.map_map, List.pairwise_map]
    exact List.Pairwise.imp
      (fun {a b} h => by
        simpa [Function.comp, rowValue_rowFor] using h)
      (iterHosts_pairwise n)

theorem c5_witness :
    SheetRow.assignedRow recGW.rid 3232235521 (isDefaultGateway recGW.tagsResult)
        ∈ buildRows true net30 [recGW] ∧
      SheetRow.availableRow 3232235522 net30.plen ∈ buildRows true net30 [recGW] ∧
      ¬ (SheetRow.assignedRow recGW.rid 3232235521
            (isDefaultGateway recGW.tagsResult) ∈ buildRows true net30 [recGW] ∧
          SheetRow.availableRow 3232235521 net30.plen ∈
            buildRows true net30 [recGW]) := by
  have h := c5_detail_merge true net30 [recGW] (by decide)
  exact ⟨h.2.1 3232235521 (by decide) recGW (by decide),
    h.2.2.1 3232235522 (by decide) (by decide),
    h.1 recGW.rid 3232235521 (isDefaultGateway recGW.tagsResult) net30.plen⟩

-- ==========================================================================
-- Claim C6 — orphan-VLAN partition
-- ==========================================================================

/-- A merge sort yields the empty list only for the empty list. -/
theorem mergeSort_eq_nil_iff {α : Type} (l : List α) (le : α → α → Bool) :
    l.mergeSort le = [] ↔ l = [] := by
  constructor
  · intro h
    have hp := List.mergeSort_perm l le
    rw [h] at hp
    exact hp.symm.eq_nil
  · intro h
    rw [h]
    exact List.mergeSort_nil

/-- `List.contains` agrees with membership on `Nat` lists. -/
theorem contains_iff_mem (l : List Nat) (x : Nat) :
    l.contains x = true ↔ x ∈ l := by
  simp

/-- C6: the orphan VLANs and the VLANs associated with at least one network
row partition the site's VLANs — their union is everything and they are
disjoint; the orphan sequence is ordered ascending by numeric tag; and an
empty orphan result is the ordinary outcome of every VLAN being
associated, not an error. -/
theorem c6_orphan_partition (siteVlans : List VlanRec) (nets : List NetRec) :
    (∀ v, v ∈ siteVlans ↔
        (v ∈ orphanVlans siteVlans nets ∨
          v ∈ associatedSiteVlans siteVlans nets)) ∧
    (∀ v, ¬ (v ∈ orphanVlans siteVlans nets ∧
        v ∈ associatedSiteVlans siteVlans nets)) ∧
    List.Pairwise (fun a b => a.vid ≤ b.vid) (orphanVlans siteVlans nets) ∧
    (orphanVlans siteVlans nets = [] ↔
        ∀ v ∈ siteVlans, v.vlanId ∈ associatedVlanIds nets) := by
  have hmemO : ∀ v, v ∈ orphanVlans siteVlans nets ↔
      (v ∈ siteVlans ∧ v.vlanId ∉ associatedVlanIds nets) := by
    intro v
    rw [orphanVlans, (List.mergeSort_perm _ vlanLe).mem_iff, List.mem_filter]
    simp [contains_iff_mem]
  have hmemA : ∀ v, v ∈ associatedSiteVlans siteVlans nets ↔
      (v ∈ siteVlans ∧ v.vlanId ∈ associatedVlanIds nets) := by
    intro v
    rw [associatedSiteVlans, List.mem_filter]
    simp [contains_iff_mem]
  refine ⟨?_, ?_, ?_, ?_⟩
  · intro v
    rw [hmemO, hmemA]
    by_cases hx : v.vlanId ∈ associatedVlanIds nets
    · simp [hx]
    · simp [hx]
  · intro v
    rw [hmemO, hmemA]
    tauto
  · have htrans : ∀ a b c : VlanRec, vlanLe a b = true → vlanLe b c = true →
        vlanLe a c = true := by
      intro a b c hab hbc
      simp only [vlanLe, decide_eq_true_eq] at *
      omega
    have htotal : ∀ a b : VlanRec, (vlanLe a b || vlanLe b a) = true := by
      intro a b
      simp only [vlanLe, Bool.or_eq_true, decide_eq_true_eq]
      omega
    exact List.Pairwise.imp
      (fun {a b} h => by simpa [vlanLe] using h)
      (List.sorted_mergeSort htrans htotal _)
  · rw [orphanVlans, mergeSort_eq_nil_iff, List.filter_eq_nil_iff]
    constructor
    · intro h v hv
      have := h v hv
      simpa [contains_iff_mem] using this
    · intro h v hv
      simpa [contains_iff_mem] using h v hv

theorem c6_witness :
    vlanB ∈ orphanVlans [vlanA, vlanB] [netRec24] ∧
      ¬ (vlanA ∈ orphanVlans [vlanA, vlanB] [netRec24] ∧
          vlanA ∈ associatedSiteVlans [vlanA, vlanB] [netRec24]) := by
  have h := c6_orphan_partition [vlanA, vlanB] [netRec24]
  refine ⟨?_, h.2.1 vlanA⟩
  have hv := (h.1 vlanB).mp (by decide)
  exact hv.resolve_right (by decide)

-- ==========================================================================
-- Claim C7 — validation gate
-- ==========================================================================

/-- C7: the run's "no data" early exit fires exactly when both the network
list and the VLAN list of the site are empty; in every other case the full
document is built.  The early exit is an ordinary return value of the
model (mirroring the `return None, error` of the source, which the caller
turns into a result string, not an exception). -/
theorem c7_validation_gate (records : List IPRecord) (nets : List NetRec)
    (siteVlans : List VlanRec) (includeEmpty showUnused : Bool) :
    ((doWork records nets siteVlans includeEmpty showUnused).isNoData = true ↔
        (nets = [] ∧ siteVlans = [])) ∧
    ((¬ (nets = [] ∧ siteVlans = [])) →
        doWork records nets siteVlans includeEmpty showUnused =
          RunOutcome.artifact
            (buildReport records nets siteVlans includeEmpty showUnused)) := by
  have hlen : (nets.length = 0 ∧ siteVlans.length = 0) ↔
      (nets = [] ∧ siteVlans = []) := by
    rw [List.length_eq_zero, List.length_eq_zero]
  constructor
  · by_cases h : nets.length = 0 ∧ siteVlans.length = 0
    · rw [doWork, if_pos h]
      simp only [RunOutcome.isNoData]
      exact iff_of_true trivial (hlen.mp h)
    · rw [doWork, if_neg h]
      simp only [RunOutcome.isNoData]
      exact iff_of_false (by simp) (fun hc => h (hlen.mpr hc))
  · intro hc
    rw [doWork, if_neg (fun h => hc (hlen.mp h))]

theorem c7_witness :
    (doWork [] [] [] true true).isNoData = true ∧
      doWork [] [netRec24] [] true true =
        RunOutcome.artifact (buildReport [] [netRec24] [] true true) := by
  have h1 := c7_validation_gate [] ([] : List NetRec) ([] : List VlanRec) true true
  have h2 := c7_validation_gate [] [netRec24] [] true true
  exact ⟨h1.1.mpr ⟨rfl, rfl⟩, h2.2 (by simp)⟩

-- ==========================================================================
-- Claim C8 — gateway classifier
-- ==========================================================================

/-- C8: the classifier answers `true` exactly when the tag lookup succeeds
and the returned slugs contain the exact (case-sensitive) string
`default-gateway`; any lookup error yields `false` — the error is absorbed,
never propagated (the model is a total function on lookup outcomes). -/
theorem c8_gateway_classifier (t : TagLookup) :
    (isDefaultGateway t = true ↔
        ∃ slugs, t = TagLookup.ok slugs ∧ "default-gateway" ∈ slugs) ∧
    (∀ m, isDefaultGateway (TagLookup.err m) = false) := by
  refine ⟨?_, fun m => rfl⟩
  cases t with
  | ok slugs => simp [isDefaultGateway]
  | err m => simp [isDefaultGateway]

theorem c8_witness :
    isDefaultGateway (TagLookup.ok ["default-gateway"]) = true ∧
      isDefaultGateway (TagLookup.err "database error") = false ∧
      isDefaultGateway (TagLookup.ok ["Default-Gateway"]) = false := by
  refine ⟨(c8_gateway_classifier (TagLookup.ok ["default-gateway"])).1.mpr
      ⟨["default-gateway"], rfl, by decide⟩,
    (c8_gateway_classifier (TagLookup.err "database error")).2 "database error",
    ?_⟩
  cases h : isDefaultGateway (TagLookup.ok ["Default-Gateway"]) with
  | false => rfl
  | true =>
    obtain ⟨slugs, hok, hmem⟩ := (c8_gateway_classifier _).1.mp h
    injection hok with he
    rw [← he] at hmem
    exact absurd hmem (by decide)

-- ==========================================================================
-- Claim C9 — persistence fallback chain
-- ==========================================================================

/-- C9 fails as stated: when no job output-file channel is available and
the media-directory write also fails, the run ends in the error result —
the artifact is not delivered in any form; no code path returns it
inline. -/
theorem c9_counterexample :
    persistArtifact false true false = PersistResult.errorResult ∧
      deliversArtifact (persistArtifact false true false) = false := by
  constructor <;> rfl

/-- C9 (amended): there are exactly two delivery tiers — attach to the
job's output file when that channel exists, otherwise write to the media
directory — and when the fallback write fails the run returns an error
result and the generated content is lost (there is no inline last
resort). -/
theorem c9_persistence_amended (jobHasOutputFile attachOk mediaOk : Bool) :
    (jobHasOutputFile = true → attachOk = true →
        persistArtifact jobHasOutputFile attachOk mediaOk =
          PersistResult.attachedToJob) ∧
    (jobHasOutputFile = false → mediaOk = true →
        persistArtifact jobHasOutputFile attachOk mediaOk =
          PersistResult.savedToMedia) ∧
    (jobHasOutputFile = false → mediaOk = false →
        persistArtifact jobHasOutputFile attachOk mediaOk =
          PersistResult.errorResult ∧
        deliversArtifact
          (persistArtifact jobHasOutputFile attachOk mediaOk) = false) := by
  refine ⟨fun h1 h2 => ?_, fun h1 h2 => ?_, fun h1 h2 => ?_⟩
  · subst h1; subst h2; rfl
  · subst h1; subst h2; rfl
  · subst h1; subst h2; exact ⟨rfl, rfl⟩

theorem c9_witness :
    persistArtifact false true true = PersistResult.savedToMedia :=
  (c9_persistence_amended false true true).2.1 rfl rfl

-- ==========================================================================
-- Claim C10 — malformed address records are silently excluded
-- ==========================================================================

/-- C10: a stored record whose address text does not parse is excluded from
the matcher's result for every network — hence from the used count, the
gateway candidates, and the assigned-row lookup of every detail sheet —
and removing it from the stored records changes neither the matcher output
nor the used count.  (The model is a total function: the bare
`except: pass` swallows the parse error without logging or re-raising.) -/
theorem c10_malformed_excluded (records : List IPRecord) (n : IPNet)
    (r : IPRecord) (hr : r.parsed = none) :
    r ∉ matchingIps records n ∧
    r ∉ gatewayIps records n ∧
    (∀ v, lookupAssigned (matchingIps records n) v ≠ some r) ∧
    matchingIps (records.filter (fun s => !(s == r))) n =
      matchingIps records n ∧
    usedCount (records.filter (fun s => !(s == r))) n =
      usedCount records n := by
  have hpred : matchPred n r = false := by
    rw [matchPred, hr]
  have hnotmem : r ∉ matchingIps records n := by
    rw [matchingIps, (List.mergeSort_perm _ recLe).mem_iff]
    intro hmem
    have hp := (List.mem_filter.mp hmem).2
    rw [hpred] at hp
    exact Bool.false_ne_true hp
  have heq : matchingIps (records.filter (fun s => !(s == r))) n =
      matchingIps records n := by
    rw [matchingIps, matchingIps, List.filter_filter]
    congr 1
    apply List.filter_congr
    intro s hs
    by_cases hsr : s = r
    · subst hsr
      simp [hpred]
    · simp [hsr]
  refine ⟨hnotmem, ?_, ?_, heq, ?_⟩
  · intro hmem
    exact hnotmem (List.mem_filter.mp hmem).1
  · intro v hv
    have hmem := List.mem_of_find?_eq_some hv
    rw [List.mem_reverse] at hmem
    exact hnotmem hmem
  · rw [usedCount, usedCount, heq]

theorem c10_witness :
    recBad ∉ matchingIps [recBad, recA] net24 ∧
      usedCount ([recBad, recA].filter (fun s => !(s == recBad))) net24 =
        usedCount [recBad, recA] net24 := by
  have h := c10_malformed_excluded [recBad, recA] net24 recBad (by decide)
  exact ⟨h.1, h.2.2.2.2⟩
